import Mathlib

/-!
Shallow embedding of the Track-n-Ride server core (`src/main.py`).

The three global dictionaries of the source — `active_sessions`
(session_id → user state), `rides` (ride_id → ride state) and the
connection table `ConnectionManager.active_connections`
(session_id → websocket) — are modelled as association lists that
preserve Python dict insertion order: updating an existing key replaces
the value in place, inserting a new key appends, deleting filters the
key out.

A websocket channel is modelled as a `Chan` carrying an `ok` flag:
`send_json` on a channel with `ok = false` raises, which the source
converts into pruning the connection (`ConnectionManager.disconnect`);
on a channel with `ok = true` it delivers the frame.  Deliveries are
collected as ordered `(recipient, frame)` pairs.

Nondeterministic inputs of the source (uuid generation, wall-clock
timestamps, the stream of events arriving on a websocket) are passed as
explicit parameters.  Opaque JSON payloads (locations, destinations)
are modelled as `Option Loc` — `message.get(...)` yields `None` when
the field is absent.
-/

abbrev Loc := String

structure Chan where
  id : Nat
  ok : Bool
deriving DecidableEq

/-- One value of `active_sessions`: `{username, session_id, ride_id, joined_at, location}`. -/
structure SessionInfo where
  username : String
  session_id : String
  ride_id : String
  joined_at : Nat
  location : Option Loc
deriving DecidableEq

/-- One value of `rides`: `{created_at, name, admin_session_id, destination}`. -/
structure RideInfo where
  created_at : Nat
  name : String
  admin_session_id : String
  destination : Option Loc
deriving DecidableEq

/-- One element of the `users` list of an `initial_state` frame. -/
structure UserView where
  session_id : String
  username : String
  location : Option Loc
deriving DecidableEq

/-- Outbound frame shapes sent by the server. -/
inductive Frame where
  | initial_state (users : List UserView) (ride_id : String)
      (destination : Option Loc) (is_admin : Bool)
  | user_joined (session_id : String) (username : String)
  | user_left (session_id : String) (username : String)
  | location_update (session_id : String) (username : String) (location : Option Loc)
  | destination_update (destination : Option Loc)
deriving DecidableEq

/-- Inbound messages, dispatched on `message.get("type")`; any unknown
tag falls through both `if` branches of the receive loop (`other`). -/
inductive InMsg where
  | location_update (location : Option Loc)
  | set_destination (destination : Option Loc)
  | other
deriving DecidableEq

/-- What `await websocket.receive_text()` produces next: a parsed message,
a `WebSocketDisconnect`, or some other exception (e.g. malformed JSON). -/
inductive WsEvent where
  | msg (m : InMsg)
  | disconnect
  | fault
deriving DecidableEq

/-- Outcome of the connect phase of the websocket endpoint. -/
inductive ConnectOutcome where
  | rejected (code : Nat) (reason : String)
  | accepted
deriving DecidableEq

inductive LoginResult where
  | ok (session_id : String) (username : String) (ride_id : String) (is_admin : Bool)
  | err (status : Nat) (detail : String)
deriving DecidableEq

/-- The whole shared in-memory state of the server. -/
structure ServerState where
  active_sessions : List (String × SessionInfo)
  rides : List (String × RideInfo)
  active_connections : List (String × Chan)
deriving DecidableEq

/-- Python dict lookup `d.get(k)` / `d[k]`. -/
def alistLookup {α : Type} : List (String × α) → String → Option α
  | [], _ => none
  | (k, v) :: rest, k0 => if k = k0 then some v else alistLookup rest k0

/-- Python dict write `d[k] = v`: replace in place if present, else append. -/
def alistInsert {α : Type} : List (String × α) → String → α → List (String × α)
  | [], k, v => [(k, v)]
  | (k0, v0) :: rest, k, v =>
    if k0 = k then (k, v) :: rest else (k0, v0) :: alistInsert rest k v

/-- Python dict delete `del d[k]` (keys are unique in a dict, so
filtering every occurrence agrees with deleting the one entry). -/
def alistErase {α : Type} (l : List (String × α)) (k : String) : List (String × α) :=
  l.filter (fun p => decide (p.1 ≠ k))

/-- Python `str.strip()`: drop whitespace from both ends. -/
def pyStrip (s : String) : String :=
  String.mk (((s.toList.dropWhile Char.isWhitespace).reverse.dropWhile
    Char.isWhitespace).reverse)

/-- Python `str.isalnum()`: nonempty and every character alphanumeric. -/
def pyIsAlnum (s : String) : Bool :=
  !s.toList.isEmpty && s.toList.all Char.isAlphanum

/-- The apostrophe character, used in the generated ride name. -/
def apos : String := String.mk [Char.ofNat 39]

/-- Keys of `active_sessions` whose info has the given `ride_id` —
the `ride_sessions` snapshot computed at the top of `broadcast_to_ride`. -/
def rideSessions (sessions : List (String × SessionInfo)) (ride_id : String) :
    List String :=
  (sessions.filter (fun p => decide (p.2.ride_id = ride_id))).map Prod.fst

/-- The fan-out loop of `broadcast_to_ride`: for each snapshot member that
is not the excluded sender and still has a channel, try `send_json`;
a failing send puts the recipient on the `disconnected` list.
Returns (deliveries, disconnected). -/
def bcastLoop (conns : List (String × Chan)) (msg : Frame) (excl : Option String) :
    List String → List (String × Frame) × List String
  | [] => ([], [])
  | sid :: rest =>
    let tail := bcastLoop conns msg excl rest
    if some sid = excl then tail
    else
      match alistLookup conns sid with
      | none => tail
      | some ch =>
        if ch.ok then ((sid, msg) :: tail.1, tail.2)
        else (tail.1, sid :: tail.2)

/-- `ConnectionManager.broadcast_to_ride`: snapshot the ride's sessions from
`active_sessions`, fan out, then prune the accumulated `disconnected`
list from the connection table after the loop. -/
def broadcast_to_ride (st : ServerState) (msg : Frame) (ride_id : String)
    (excl : Option String) : ServerState × List (String × Frame) :=
  let recips := rideSessions st.active_sessions ride_id
  let r := bcastLoop st.active_connections msg excl recips
  ({ st with active_connections :=
      r.2.foldl (fun cs s => alistErase cs s) st.active_connections }, r.1)

/-- `ConnectionManager.send_personal_message`: send to one session if a
channel is registered; a failing send just disconnects that session. -/
def send_personal_message (st : ServerState) (msg : Frame) (session_id : String) :
    ServerState × List (String × Frame) :=
  match alistLookup st.active_connections session_id with
  | none => (st, [])
  | some ch =>
    if ch.ok then (st, [(session_id, msg)])
    else ({ st with active_connections := alistErase st.active_connections session_id }, [])

/-- `POST /api/login`.  The generated `uuid4` session id, the generated
short ride id and the current time are passed in as parameters. -/
def login (st : ServerState) (username action : String) (ride_id0 : Option String)
    (new_session_id new_ride_id : String) (now : Nat) : ServerState × LoginResult :=
  if pyStrip username = "" then
    (st, .err 400 "Username is required")
  else
    let uname := pyStrip username
    if uname.length > 50 then
      (st, .err 400 "Username too long (max 50 chars)")
    else if action = "create" then
      let ride : RideInfo :=
        { created_at := now, name := uname ++ apos ++ "s Ride",
          admin_session_id := new_session_id, destination := none }
      let sess : SessionInfo :=
        { username := uname, session_id := new_session_id, ride_id := new_ride_id,
          joined_at := now, location := none }
      ({ st with rides := alistInsert st.rides new_ride_id ride,
                 active_sessions := alistInsert st.active_sessions new_session_id sess },
       .ok new_session_id uname new_ride_id true)
    else if action = "join" then
      match ride_id0 with
      | none => (st, .err 400 "Ride ID is required to join")
      | some r0 =>
        if r0 = "" then (st, .err 400 "Ride ID is required to join")
        else
          let rid := pyStrip r0
          if rid.length > 20 ∨ pyIsAlnum rid = false then
            (st, .err 400 "Invalid Ride ID format")
          else if alistLookup st.rides rid = none then
            (st, .err 404 "Ride not found")
          else
            let sess : SessionInfo :=
              { username := uname, session_id := new_session_id, ride_id := rid,
                joined_at := now, location := none }
            ({ st with active_sessions :=
                alistInsert st.active_sessions new_session_id sess },
             .ok new_session_id uname rid false)
    else
      (st, .err 400 "Invalid action")

/-- `POST /api/logout`: delete the session if present, then notify the
ride; an absent session returns the same success response. -/
def logout (st : ServerState) (session_id : String) :
    ServerState × List (String × Frame) × String :=
  match alistLookup st.active_sessions session_id with
  | some info =>
    let st1 : ServerState :=
      { st with active_sessions := alistErase st.active_sessions session_id }
    let r := broadcast_to_ride st1 (.user_left session_id info.username)
      info.ride_id none
    (r.1, r.2, "Logout successful")
  | none => (st, [], "Logout successful")

/-- The body of the websocket receive loop for one inbound message.
`username` and `ride_id` are the values captured at connect time
(`user_info["username"]`, `user_info["ride_id"]`), and `ride_info0` is
the value of the `ride_info` dict the handler captured at connect
(`ride_info = rides.get(ride_id)`).  The `set_destination` admin check
and the destination write go through that alias, not through a fresh
lookup of `rides`.  `created_at`, `name` and `admin_session_id` are
never written through any alias, so the captured value stays exact for
the admin check; the write `ride_info["destination"] = destination`
reaches the registry exactly when `rides[ride_id]` still is the
captured dict.  Ride dicts are created in one place with a freshly
generated admin session id, so "the registry still holds the captured
dict" is modelled as its entry agreeing with the alias on the three
never-aliased-written fields; a colliding `create` that rebinds
`ride_id` breaks that agreement, leaving the write invisible in the
registry while the broadcast still goes out.  The returned Bool is
true when the body raised (the `KeyError` of
`active_sessions[session_id]` after the session was logged out), which
the enclosing generic `except` turns into a bare disconnect. -/
def handleMessage (st : ServerState) (session_id username ride_id : String)
    (ride_info0 : Option RideInfo) (msg : InMsg) :
    ServerState × List (String × Frame) × Bool :=
  match msg with
  | .location_update loc =>
    match alistLookup st.active_sessions session_id with
    | some info =>
      let st1 : ServerState :=
        { st with active_sessions :=
            alistInsert st.active_sessions session_id { info with location := loc } }
      let r := broadcast_to_ride st1
        (.location_update session_id username loc) ride_id (some session_id)
      (r.1, r.2, false)
    | none => (st, [], true)
  | .set_destination dest =>
    match ride_info0 with
    | some ri0 =>
      if ri0.admin_session_id = session_id then
        let st1 : ServerState :=
          match alistLookup st.rides ride_id with
          | some ri =>
            if ri.created_at = ri0.created_at ∧ ri.name = ri0.name ∧
                ri.admin_session_id = ri0.admin_session_id then
              { st with rides :=
                  alistInsert st.rides ride_id { ri with destination := dest } }
            else st
          | none => st
        let r := broadcast_to_ride st1 (.destination_update dest) ride_id none
        (r.1, r.2, false)
      else (st, [], false)
    | none => (st, [], false)
  | .other => (st, [], false)

/-- The `while True` receive loop together with its two exception
handlers.  `WebSocketDisconnect` detaches and broadcasts `user_left`;
any other exception (from `receive`/`json.loads`, modelled by `fault`,
or raised inside the body, the Bool of `handleMessage`) only detaches.
An exhausted event list leaves the connection open. -/
def wsLoop (session_id username ride_id : String) (ride_info0 : Option RideInfo) :
    ServerState → List WsEvent → ServerState × List (String × Frame)
  | st, [] => (st, [])
  | st, .msg m :: rest =>
    let r := handleMessage st session_id username ride_id ride_info0 m
    if r.2.2 then
      ({ r.1 with active_connections :=
          alistErase r.1.active_connections session_id }, r.2.1)
    else
      let r2 := wsLoop session_id username ride_id ride_info0 r.1 rest
      (r2.1, r.2.1 ++ r2.2)
  | st, .disconnect :: _ =>
    let st1 : ServerState :=
      { st with active_connections := alistErase st.active_connections session_id }
    broadcast_to_ride st1 (.user_left session_id username) ride_id none
  | st, .fault :: _ =>
    ({ st with active_connections := alistErase st.active_connections session_id }, [])

/-- `websocket_endpoint`: verify the session (close 1008 if unknown),
attach the channel, send `initial_state` to the newcomer, broadcast
`user_joined` to the rest of the ride, then run the receive loop on the
given event stream. -/
def wsSession (st : ServerState) (session_id : String) (ch : Chan)
    (events : List WsEvent) : ServerState × List (String × Frame) × ConnectOutcome :=
  match alistLookup st.active_sessions session_id with
  | none => (st, [], .rejected 1008 "Invalid session")
  | some info =>
    let st1 : ServerState :=
      { st with active_connections :=
          alistInsert st.active_connections session_id ch }
    let rideInfo := alistLookup st1.rides info.ride_id
    let ride_users :=
      (st1.active_sessions.filter (fun p => decide (p.2.ride_id = info.ride_id))).map
        (fun p => UserView.mk p.1 p.2.username p.2.location)
    let initFrame := Frame.initial_state ride_users info.ride_id
      (match rideInfo with | some ri => ri.destination | none => none)
      (match rideInfo with
       | some ri => decide (ri.admin_session_id = session_id)
       | none => false)
    let r1 := send_personal_message st1 initFrame session_id
    let r2 := broadcast_to_ride r1.1 (.user_joined session_id info.username)
      info.ride_id (some session_id)
    let r3 := wsLoop session_id info.username info.ride_id rideInfo r2.1 events
    (r3.1, r1.2 ++ r2.2 ++ r3.2, .accepted)

/-- The admin recorded for a ride id, if the ride exists. -/
def adminOf (st : ServerState) (ride_id : String) : Option String :=
  (alistLookup st.rides ride_id).map RideInfo.admin_session_id

/-- Well-formedness: dict keys are unique (automatic for Python dicts). -/
def ServerState.wf (st : ServerState) : Prop :=
  (st.active_sessions.map Prod.fst).Nodup ∧
  (st.rides.map Prod.fst).Nodup ∧
  (st.active_connections.map Prod.fst).Nodup

instance (st : ServerState) : Decidable st.wf := by
  unfold ServerState.wf; infer_instance

/-- The fan-out loop under cooperative interleaving: before each
recipient is processed another handler may have mutated the connection
table, so the i-th step reads the i-th table of `envs` (the last table
persisting once `envs` is exhausted models no further interference).
The snapshot `recips` itself is fixed — the loop never re-reads
`active_sessions`. -/
def bcastLoopEnv (msg : Frame) (excl : Option String) :
    List (String × Chan) → List (List (String × Chan)) → List String →
      List (String × Frame) × List String
  | _, _, [] => ([], [])
  | conns, envs, sid :: rest =>
    let cur := envs.headD conns
    let tail := bcastLoopEnv msg excl cur envs.tail rest
    if some sid = excl then tail
    else
      match alistLookup cur sid with
      | none => tail
      | some ch =>
        if ch.ok then ((sid, msg) :: tail.1, tail.2)
        else (tail.1, sid :: tail.2)

/-! ### Association-list lemmas -/

theorem alistLookup_insert {α : Type} (l : List (String × α)) (k : String) (v : α)
    (k' : String) :
    alistLookup (alistInsert l k v) k' = if k = k' then some v else alistLookup l k' := by
  induction l with
  | nil => simp [alistInsert, alistLookup]
  | cons p rest ih =>
    obtain ⟨a, b⟩ := p
    by_cases hak : a = k
    · subst hak
      by_cases hk' : a = k'
      · subst hk'
        simp [alistInsert, alistLookup]
      · simp [alistInsert, alistLookup, hk']
    · by_cases hk' : a = k'
      · subst hk'
        have hkk : ¬ k = a := fun h => hak h.symm
        simp [alistInsert, alistLookup, hak, hkk]
      · simp [alistInsert, alistLookup, hak, hk', ih]

theorem alistLookup_erase {α : Type} (l : List (String × α)) (k k' : String) :
    alistLookup (alistErase l k) k' = if k = k' then none else alistLookup l k' := by
  induction l with
  | nil => simp [alistErase, alistLookup]
  | cons p rest ih =>
    obtain ⟨a, b⟩ := p
    by_cases hak : a = k
    · subst hak
      by_cases hk' : a = k'
      · subst hk'
        simp [alistErase, alistLookup, List.filter_cons] at ih ⊢
        simpa using ih
      · simp [alistErase, alistLookup, List.filter_cons, hk'] at ih ⊢
        simpa [hk'] using ih
    · by_cases hk' : a = k'
      · subst hk'
        have hkk : ¬ k = a := fun h => hak h.symm
        simp [alistErase, alistLookup, List.filter_cons, hak, hkk]
      · simp [alistErase, alistLookup, List.filter_cons, hak, hk'] at ih ⊢
        exact ih

theorem alistLookup_foldl_erase {α : Type} (fs : List String)
    (l : List (String × α)) (k : String) :
    alistLookup (fs.foldl (fun cs s => alistErase cs s) l) k =
      if k ∈ fs then none else alistLookup l k := by
  induction fs generalizing l with
  | nil => simp
  | cons f rest ih =>
    simp only [List.foldl_cons, ih, alistLookup_erase]
    by_cases hk : k ∈ rest
    · simp [hk]
    · by_cases hfk : f = k
      · simp [hk, hfk]
      · have hkf : ¬ k = f := fun h => hfk h.symm
        simp [hk, hfk, hkf]

theorem mem_of_alistLookup {α : Type} {l : List (String × α)} {k : String} {v : α}
    (h : alistLookup l k = some v) : (k, v) ∈ l := by
  induction l with
  | nil => simp [alistLookup] at h
  | cons p rest ih =>
    obtain ⟨a, b⟩ := p
    by_cases hak : a = k
    · subst hak
      have hb : b = v := by simpa [alistLookup] using h
      subst hb
      exact List.mem_cons_self _ _
    · simp only [alistLookup, if_neg hak] at h
      exact List.mem_cons_of_mem _ (ih h)

theorem alistLookup_of_mem {α : Type} {l : List (String × α)} {k : String} {v : α}
    (hnd : (l.map Prod.fst).Nodup) (h : (k, v) ∈ l) : alistLookup l k = some v := by
  induction l with
  | nil => simp at h
  | cons p rest ih =>
    obtain ⟨a, b⟩ := p
    simp only [List.map_cons, List.nodup_cons] at hnd
    rcases List.mem_cons.1 h with h1 | h1
    · cases h1
      simp [alistLookup]
    · have hak : ¬ a = k := by
        intro he
        subst he
        exact hnd.1 (List.mem_map_of_mem Prod.fst h1)
      simp only [alistLookup, if_neg hak]
      exact ih hnd.2 h1

theorem alistLookup_eq_none {α : Type} {l : List (String × α)} {k : String} :
    alistLookup l k = none ↔ k ∉ l.map Prod.fst := by
  induction l with
  | nil => simp [alistLookup]
  | cons p rest ih =>
    obtain ⟨a, b⟩ := p
    by_cases hak : a = k
    · subst hak
      simp [alistLookup]
    · have hka : ¬ k = a := fun h => hak h.symm
      simp [alistLookup, hak, hka, ih]

/-! ### Broadcast lemmas -/

theorem mem_rideSessions {s : List (String × SessionInfo)} {rid t : String} :
    t ∈ rideSessions s rid ↔ ∃ info, (t, info) ∈ s ∧ info.ride_id = rid := by
  simp only [rideSessions, List.mem_map, List.mem_filter, decide_eq_true_eq]
  constructor
  · rintro ⟨⟨a, b⟩, ⟨hm, hr⟩, rfl⟩
    exact ⟨b, hm, hr⟩
  · rintro ⟨info, hm, hr⟩
    exact ⟨(t, info), ⟨hm, hr⟩, rfl⟩

theorem rideSessions_nodup {s : List (String × SessionInfo)} {rid : String}
    (h : (s.map Prod.fst).Nodup) : (rideSessions s rid).Nodup := by
  have hsub : (rideSessions s rid).Sublist (s.map Prod.fst) :=
    (List.filter_sublist s).map Prod.fst
  exact h.sublist hsub

theorem rideSessions_insert_same {s : List (String × SessionInfo)} {k : String}
    {info info' : SessionInfo} {rid : String}
    (h : alistLookup s k = some info) (hr : info'.ride_id = info.ride_id) :
    rideSessions (alistInsert s k info') rid = rideSessions s rid := by
  induction s with
  | nil => simp [alistLookup] at h
  | cons p rest ih =>
    obtain ⟨a, b⟩ := p
    by_cases hak : a = k
    · subst hak
      have hb : b = info := by simpa [alistLookup] using h
      subst hb
      by_cases hb2 : b.ride_id = rid <;>
        simp [alistInsert, rideSessions, List.filter_cons, hr, hb2]
    · simp only [alistLookup, if_neg hak] at h
      have := ih h
      simp only [rideSessions] at this
      by_cases hb : b.ride_id = rid <;>
        simp [alistInsert, rideSessions, List.filter_cons, hak, hb, this]

theorem bcastLoop_fst_mem {conns : List (String × Chan)} {msg : Frame}
    {excl : Option String} {recips : List String} {t : String} {f : Frame} :
    (t, f) ∈ (bcastLoop conns msg excl recips).1 ↔
      t ∈ recips ∧ f = msg ∧ some t ≠ excl ∧
        ∃ ch, alistLookup conns t = some ch ∧ ch.ok = true := by
  induction recips with
  | nil => simp [bcastLoop]
  | cons sid rest ih =>
    by_cases hex : some sid = excl
    · simp only [bcastLoop, if_pos hex, List.mem_cons]
      rw [ih]
      constructor
      · rintro ⟨h1, h2, h3, h4⟩
        exact ⟨Or.inr h1, h2, h3, h4⟩
      · rintro ⟨h1 | h1, h2, h3, h4⟩
        · exact absurd hex (h1 ▸ h3)
        · exact ⟨h1, h2, h3, h4⟩
    · cases hc : alistLookup conns sid with
      | none =>
        simp only [bcastLoop, if_neg hex, hc, List.mem_cons]
        rw [ih]
        constructor
        · rintro ⟨h1, h2, h3, h4⟩
          exact ⟨Or.inr h1, h2, h3, h4⟩
        · rintro ⟨h1 | h1, h2, h3, ch, hch, hok⟩
          · subst h1
            simp [hc] at hch
          · exact ⟨h1, h2, h3, ch, hch, hok⟩
      | some ch =>
        by_cases hok : ch.ok
        · simp only [bcastLoop, if_neg hex, hc, if_pos hok, List.mem_cons]
          rw [ih]
          constructor
          · rintro (h1 | ⟨h1, h2, h3, h4⟩)
            · obtain ⟨rfl, rfl⟩ := Prod.mk.injEq .. ▸ h1
              refine ⟨Or.inl rfl, rfl, hex, ch, hc, hok⟩
            · exact ⟨Or.inr h1, h2, h3, h4⟩
          · rintro ⟨h1 | h1, h2, h3, h4⟩
            · subst h1
              subst h2
              exact Or.inl rfl
            · exact Or.inr ⟨h1, h2, h3, h4⟩
        · simp only [bcastLoop, if_neg hex, hc, if_neg hok, List.mem_cons]
          rw [ih]
          constructor
          · rintro ⟨h1, h2, h3, h4⟩
            exact ⟨Or.inr h1, h2, h3, h4⟩
          · rintro ⟨h1 | h1, h2, h3, ch2, hch2, hok2⟩
            · subst h1
              rw [hc] at hch2
              cases hch2
              exact absurd hok2 (by simpa using hok)
            · exact ⟨h1, h2, h3, ch2, hch2, hok2⟩

theorem bcastLoop_snd_mem {conns : List (String × Chan)} {msg : Frame}
    {excl : Option String} {recips : List String} {t : String} :
    t ∈ (bcastLoop conns msg excl recips).2 ↔
      t ∈ recips ∧ some t ≠ excl ∧
        ∃ ch, alistLookup conns t = some ch ∧ ch.ok = false := by
  induction recips with
  | nil => simp [bcastLoop]
  | cons sid rest ih =>
    by_cases hex : some sid = excl
    · simp only [bcastLoop, if_pos hex, List.mem_cons]
      rw [ih]
      constructor
      · rintro ⟨h1, h3, h4⟩
        exact ⟨Or.inr h1, h3, h4⟩
      · rintro ⟨h1 | h1, h3, h4⟩
        · exact absurd hex (h1 ▸ h3)
        · exact ⟨h1, h3, h4⟩
    · cases hc : alistLookup conns sid with
      | none =>
        simp only [bcastLoop, if_neg hex, hc, List.mem_cons]
        rw [ih]
        constructor
        · rintro ⟨h1, h3, h4⟩
          exact ⟨Or.inr h1, h3, h4⟩
        · rintro ⟨h1 | h1, h3, ch, hch, hok⟩
          · subst h1
            simp [hc] at hch
          · exact ⟨h1, h3, ch, hch, hok⟩
      | some ch =>
        by_cases hok : ch.ok
        · simp only [bcastLoop, if_neg hex, hc, if_pos hok, List.mem_cons]
          rw [ih]
          constructor
          · rintro ⟨h1, h3, h4⟩
            exact ⟨Or.inr h1, h3, h4⟩
          · rintro ⟨h1 | h1, h3, ch2, hch2, hok2⟩
            · subst h1
              rw [hc] at hch2
              cases hch2
              exact absurd hok (by simpa using hok2)
            · exact ⟨h1, h3, ch2, hch2, hok2⟩
        · simp only [bcastLoop, if_neg hex, hc, if_neg hok, List.mem_cons]
          rw [ih]
          constructor
          · rintro (rfl | ⟨h1, h3, h4⟩)
            · exact ⟨Or.inl rfl, hex, ch, hc, by simpa using hok⟩
            · exact ⟨Or.inr h1, h3, h4⟩
          · rintro ⟨h1 | h1, h3, h4⟩
            · exact Or.inl h1
            · exact Or.inr ⟨h1, h3, h4⟩

theorem bcastLoop_fst_sublist (conns : List (String × Chan)) (msg : Frame)
    (excl : Option String) (recips : List String) :
    ((bcastLoop conns msg excl recips).1.map Prod.fst).Sublist recips := by
  induction recips with
  | nil => simp [bcastLoop]
  | cons sid rest ih =>
    by_cases hex : some sid = excl
    · simp only [bcastLoop, if_pos hex]
      exact ih.cons sid
    · cases hc : alistLookup conns sid with
      | none =>
        simp only [bcastLoop, if_neg hex, hc]
        exact ih.cons sid
      | some ch =>
        by_cases hok : ch.ok
        · simp only [bcastLoop, if_neg hex, hc, if_pos hok, List.map_cons]
          exact ih.cons₂ sid
        · simp only [bcastLoop, if_neg hex, hc, if_neg hok]
          exact ih.cons sid

theorem alistInsert_map_fst_of_lookup {α : Type} {l : List (String × α)} {k : String}
    {v0 : α} (h : alistLookup l k = some v0) (v : α) :
    (alistInsert l k v).map Prod.fst = l.map Prod.fst := by
  induction l with
  | nil => simp [alistLookup] at h
  | cons p rest ih =>
    obtain ⟨a, b⟩ := p
    by_cases hak : a = k
    · subst hak
      simp [alistInsert]
    · simp only [alistLookup, if_neg hak] at h
      simp [alistInsert, hak, ih h]

theorem broadcast_active_sessions (st : ServerState) (msg : Frame) (rid : String)
    (excl : Option String) :
    (broadcast_to_ride st msg rid excl).1.active_sessions = st.active_sessions := rfl

theorem broadcast_rides (st : ServerState) (msg : Frame) (rid : String)
    (excl : Option String) :
    (broadcast_to_ride st msg rid excl).1.rides = st.rides := rfl

/-- Lookup in the connection table after a broadcast: exactly the
recipients whose send failed have been pruned; nothing else changed. -/
theorem broadcast_conns_lookup (st : ServerState) (msg : Frame) (rid : String)
    (excl : Option String) (k : String) :
    alistLookup (broadcast_to_ride st msg rid excl).1.active_connections k =
      if k ∈ (bcastLoop st.active_connections msg excl
          (rideSessions st.active_sessions rid)).2
      then none else alistLookup st.active_connections k :=
  alistLookup_foldl_erase _ _ _

/-- A frame is delivered by `broadcast_to_ride` exactly to the non-excluded
sessions of the ride (per `active_sessions`) whose registered channel
delivers, and every delivered frame is the broadcast message. -/
theorem broadcast_deliv_mem {st : ServerState} {msg : Frame} {rid : String}
    {excl : Option String} {t : String} {f : Frame}
    (hnd : (st.active_sessions.map Prod.fst).Nodup) :
    (t, f) ∈ (broadcast_to_ride st msg rid excl).2 ↔
      f = msg ∧ some t ≠ excl ∧
        (∃ i, alistLookup st.active_sessions t = some i ∧ i.ride_id = rid) ∧
        ∃ ch, alistLookup st.active_connections t = some ch ∧ ch.ok = true := by
  have h1 : (broadcast_to_ride st msg rid excl).2 =
      (bcastLoop st.active_connections msg excl
        (rideSessions st.active_sessions rid)).1 := rfl
  rw [h1, bcastLoop_fst_mem, mem_rideSessions]
  constructor
  · rintro ⟨⟨i, hi, hir⟩, h2, h3, h4⟩
    exact ⟨h2, h3, ⟨i, alistLookup_of_mem hnd hi, hir⟩, h4⟩
  · rintro ⟨h2, h3, ⟨i, hi, hir⟩, h4⟩
    exact ⟨⟨i, mem_of_alistLookup hi, hir⟩, h2, h3, h4⟩

/-- Each session receives a given broadcast at most once. -/
theorem broadcast_deliv_nodup {st : ServerState} (msg : Frame) (rid : String)
    (excl : Option String) (hnd : (st.active_sessions.map Prod.fst).Nodup) :
    ((broadcast_to_ride st msg rid excl).2.map Prod.fst).Nodup :=
  (rideSessions_nodup hnd).sublist
    (bcastLoop_fst_sublist st.active_connections msg excl
      (rideSessions st.active_sessions rid))

/-! ### Claim theorems -/

/-- C1: processing an inbound `location_update` message from a session S
of ride R first stores the payload as S's location in the session
registry, and the frames it delivers are exactly one
`location_update` frame (S's id, S's username, the new location) to
each other session of R whose attached channel delivers — no session of
a different ride receives it, and it is never delivered back to S. -/
theorem C1_location_update_fanout (st : ServerState) (sid uname R : String)
    (rinfo : Option RideInfo) (info : SessionInfo) (loc : Option Loc)
    (hwf : st.wf) (hs : alistLookup st.active_sessions sid = some info)
    (hr : info.ride_id = R) :
    (handleMessage st sid uname R rinfo (.location_update loc)).2.2 = false ∧
    alistLookup (handleMessage st sid uname R rinfo (.location_update loc)).1.active_sessions sid
      = some { info with location := loc } ∧
    ∀ t f, (t, f) ∈ (handleMessage st sid uname R rinfo (.location_update loc)).2.1 ↔
      f = Frame.location_update sid uname loc ∧ t ≠ sid ∧
        (∃ i, alistLookup st.active_sessions t = some i ∧ i.ride_id = R) ∧
        ∃ ch, alistLookup st.active_connections t = some ch ∧ ch.ok = true := by
  obtain ⟨hnd, _, _⟩ := hwf
  simp only [handleMessage, hs]
  refine ⟨trivial, ?_, ?_⟩
  · rw [broadcast_active_sessions]
    show alistLookup (alistInsert st.active_sessions sid { info with location := loc }) sid
      = some { info with location := loc }
    rw [alistLookup_insert]
    simp
  · intro t f
    have hnd1 : ((({ st with active_sessions := alistInsert st.active_sessions sid ({ info with location := loc }) } : ServerState).active_sessions).map Prod.fst).Nodup := by
      show ((alistInsert st.active_sessions sid { info with location := loc }).map
        Prod.fst).Nodup
      rw [alistInsert_map_fst_of_lookup hs]
      exact hnd
    rw [@broadcast_deliv_mem ({ st with active_sessions := alistInsert st.active_sessions sid ({ info with location := loc }) })
      (Frame.location_update sid uname loc) R (some sid) t f hnd1]
    show f = Frame.location_update sid uname loc ∧ some t ≠ some sid ∧
        (∃ i, alistLookup (alistInsert st.active_sessions sid
          { info with location := loc }) t = some i ∧ i.ride_id = R) ∧
        (∃ ch, alistLookup st.active_connections t = some ch ∧ ch.ok = true) ↔ _
    rw [alistLookup_insert]
    constructor
    · rintro ⟨h1, h2, ⟨i, hi, hir⟩, h4⟩
      have ht : t ≠ sid := fun he => h2 (by rw [he])
      rw [if_neg (fun he => ht he.symm)] at hi
      exact ⟨h1, ht, ⟨i, hi, hir⟩, h4⟩
    · rintro ⟨h1, ht, ⟨i, hi, hir⟩, h4⟩
      refine ⟨h1, by simpa using ht, ⟨i, ?_, hir⟩, h4⟩
      rw [if_neg (fun he => ht he.symm)]
      exact hi

/-- Witness for C1: in the two-member ride `r1`, Bob receives Alice's
location update and Alice does not receive her own. -/
theorem C1_witness :
    ("B", Frame.location_update "A" "Alice" (some "x")) ∈
      (handleMessage
        ⟨[("A", ⟨"Alice", "A", "r1", 0, none⟩), ("B", ⟨"Bob", "B", "r1", 1, none⟩)],
         [("r1", ⟨0, "ride", "A", none⟩)],
         [("A", ⟨0, true⟩), ("B", ⟨1, true⟩)]⟩
        "A" "Alice" "r1" (some ⟨0, "ride", "A", none⟩) (.location_update (some "x"))).2.1 := by
  have h := C1_location_update_fanout
    ⟨[("A", ⟨"Alice", "A", "r1", 0, none⟩), ("B", ⟨"Bob", "B", "r1", 1, none⟩)],
     [("r1", ⟨0, "ride", "A", none⟩)],
     [("A", ⟨0, true⟩), ("B", ⟨1, true⟩)]⟩
    "A" "Alice" "r1" (some ⟨0, "ride", "A", none⟩) ⟨"Alice", "A", "r1", 0, none⟩ (some "x")
    (by decide) (by decide) (by decide)
  exact (h.2.2 "B" (Frame.location_update "A" "Alice" (some "x"))).2
    ⟨rfl, by decide, ⟨⟨"Bob", "B", "r1", 1, none⟩, by decide, by decide⟩,
      ⟨⟨1, true⟩, by decide, by decide⟩⟩

/-- C2: a `set_destination` message whose sender session is the ride's
admin sets `Ride.destination` to the payload, and delivers exactly one
`destination_update` frame (carrying the destination only) to each
session of R whose attached channel delivers — the admin sender
included, with no recipient receiving it twice. -/
theorem C2_set_destination_admin (st : ServerState) (sid uname R : String)
    (info : SessionInfo) (ri : RideInfo) (d : Option Loc)
    (hwf : st.wf) (hs : alistLookup st.active_sessions sid = some info)
    (hr : info.ride_id = R)
    (hride : alistLookup st.rides R = some ri)
    (hadmin : ri.admin_session_id = sid) :
    (handleMessage st sid uname R (some ri) (.set_destination d)).2.2 = false ∧
    alistLookup (handleMessage st sid uname R (some ri) (.set_destination d)).1.rides R
      = some { ri with destination := d } ∧
    (∀ t f, (t, f) ∈ (handleMessage st sid uname R (some ri) (.set_destination d)).2.1 ↔
      f = Frame.destination_update d ∧
        (∃ i, alistLookup st.active_sessions t = some i ∧ i.ride_id = R) ∧
        ∃ ch, alistLookup st.active_connections t = some ch ∧ ch.ok = true) ∧
    ((handleMessage st sid uname R (some ri) (.set_destination d)).2.1.map Prod.fst).Nodup := by
  obtain ⟨hnd, _, _⟩ := hwf
  have hid : ri.created_at = ri.created_at ∧ ri.name = ri.name ∧
      ri.admin_session_id = ri.admin_session_id := ⟨rfl, rfl, rfl⟩
  simp only [handleMessage, hride, if_pos hadmin, if_pos hid, eq_self_iff_true,
    and_self, if_true]
  refine ⟨trivial, ?_, ?_, ?_⟩
  · rw [broadcast_rides]
    show alistLookup (alistInsert st.rides R ({ ri with destination := d })) R
      = some { ri with destination := d }
    rw [alistLookup_insert]
    simp
  · intro t f
    have hnd1 : ((({ st with rides := alistInsert st.rides R ({ ri with destination := d }) } : ServerState).active_sessions).map Prod.fst).Nodup := hnd
    rw [@broadcast_deliv_mem ({ st with rides := alistInsert st.rides R ({ ri with destination := d }) })
      (Frame.destination_update d) R none t f hnd1]
    constructor
    · rintro ⟨h1, _, h3, h4⟩
      exact ⟨h1, h3, h4⟩
    · rintro ⟨h1, h3, h4⟩
      exact ⟨h1, by simp, h3, h4⟩
  · exact @broadcast_deliv_nodup ({ st with rides := alistInsert st.rides R ({ ri with destination := d }) })
      (Frame.destination_update d) R none hnd

/-- Witness for C2: Alice, the admin of `r1`, sets a destination; the
ride record is updated and Alice herself is among the recipients of the
`destination_update` frame. -/
theorem C2_witness :
    alistLookup (handleMessage
        ⟨[("A", ⟨"Alice", "A", "r1", 0, none⟩), ("B", ⟨"Bob", "B", "r1", 1, none⟩)],
         [("r1", ⟨0, "ride", "A", none⟩)],
         [("A", ⟨0, true⟩), ("B", ⟨1, true⟩)]⟩
        "A" "Alice" "r1" (some ⟨0, "ride", "A", none⟩) (.set_destination (some "d"))).1.rides "r1"
      = some ⟨0, "ride", "A", some "d"⟩ ∧
    ("A", Frame.destination_update (some "d")) ∈
      (handleMessage
        ⟨[("A", ⟨"Alice", "A", "r1", 0, none⟩), ("B", ⟨"Bob", "B", "r1", 1, none⟩)],
         [("r1", ⟨0, "ride", "A", none⟩)],
         [("A", ⟨0, true⟩), ("B", ⟨1, true⟩)]⟩
        "A" "Alice" "r1" (some ⟨0, "ride", "A", none⟩) (.set_destination (some "d"))).2.1 := by
  have h := C2_set_destination_admin
    ⟨[("A", ⟨"Alice", "A", "r1", 0, none⟩), ("B", ⟨"Bob", "B", "r1", 1, none⟩)],
     [("r1", ⟨0, "ride", "A", none⟩)],
     [("A", ⟨0, true⟩), ("B", ⟨1, true⟩)]⟩
    "A" "Alice" "r1" ⟨"Alice", "A", "r1", 0, none⟩ ⟨0, "ride", "A", none⟩ (some "d")
    (by decide) (by decide) (by decide) (by decide) (by decide)
  refine ⟨h.2.1, (h.2.2.1 "A" (Frame.destination_update (some "d"))).2 ?_⟩
  exact ⟨rfl, ⟨⟨"Alice", "A", "r1", 0, none⟩, by decide, by decide⟩,
    ⟨⟨0, true⟩, by decide, by decide⟩⟩

/-- C3 (counterexample): Alice created `r1` and connected, capturing the
`ride_info` dict `⟨0, "ride", "A", none⟩`; then Eve's `create` login with
a colliding generated ride id rebound `rides["r1"]`, making Eve its
admin.  Alice — a session of `r1` that is no longer its admin — now
sends `set_destination`: the stale-alias admin check passes, and the
code broadcasts `destination_update` to Alice and Bob, contradicting
the claim that a non-admin `set_destination` produces no outbound frame
(the write lands in the stale dict, so the registry's destination is
also not what the sender asked). -/
theorem C3_counterexample :
    adminOf (login
        ⟨[("A", ⟨"Alice", "A", "r1", 0, none⟩), ("B", ⟨"Bob", "B", "r1", 1, none⟩)],
         [("r1", ⟨0, "ride", "A", none⟩)],
         [("A", ⟨0, true⟩), ("B", ⟨1, true⟩)]⟩ "Eve" "create" none "E" "r1" 5).1 "r1"
      = some "E" ∧
    alistLookup (login
        ⟨[("A", ⟨"Alice", "A", "r1", 0, none⟩), ("B", ⟨"Bob", "B", "r1", 1, none⟩)],
         [("r1", ⟨0, "ride", "A", none⟩)],
         [("A", ⟨0, true⟩), ("B", ⟨1, true⟩)]⟩ "Eve" "create" none "E" "r1" 5).1.active_sessions "A"
      = some ⟨"Alice", "A", "r1", 0, none⟩ ∧
    (handleMessage (login
        ⟨[("A", ⟨"Alice", "A", "r1", 0, none⟩), ("B", ⟨"Bob", "B", "r1", 1, none⟩)],
         [("r1", ⟨0, "ride", "A", none⟩)],
         [("A", ⟨0, true⟩), ("B", ⟨1, true⟩)]⟩ "Eve" "create" none "E" "r1" 5).1
        "A" "Alice" "r1" (some ⟨0, "ride", "A", none⟩)
        (.set_destination (some "d"))).2.1
      = [("A", Frame.destination_update (some "d")),
         ("B", Frame.destination_update (some "d"))] ∧
    (handleMessage (login
        ⟨[("A", ⟨"Alice", "A", "r1", 0, none⟩), ("B", ⟨"Bob", "B", "r1", 1, none⟩)],
         [("r1", ⟨0, "ride", "A", none⟩)],
         [("A", ⟨0, true⟩), ("B", ⟨1, true⟩)]⟩ "Eve" "create" none "E" "r1" 5).1
        "A" "Alice" "r1" (some ⟨0, "ride", "A", none⟩)
        (.set_destination (some "d"))).1.rides
      = (login
        ⟨[("A", ⟨"Alice", "A", "r1", 0, none⟩), ("B", ⟨"Bob", "B", "r1", 1, none⟩)],
         [("r1", ⟨0, "ride", "A", none⟩)],
         [("A", ⟨0, true⟩), ("B", ⟨1, true⟩)]⟩ "Eve" "create" none "E" "r1" 5).1.rides := by
  decide

/-- C3 (amended): a `set_destination` message from a session S that is
not R's admin leaves all registry state unchanged, produces no outbound
frame, and surfaces no error, provided S's connect-time `ride_info`
alias is current — equal to R's present registry entry — which holds
whenever no colliding `create` has rebound R since S connected. -/
theorem C3_non_admin_silent (st : ServerState) (sid uname R : String)
    (ri : RideInfo) (d : Option Loc)
    (hride : alistLookup st.rides R = some ri)
    (hadmin : ri.admin_session_id ≠ sid) :
    handleMessage st sid uname R (some ri) (.set_destination d) = (st, [], false) := by
  simp only [handleMessage, if_neg hadmin]

/-- Witness for C3's amended theorem: Bob, not the admin of `r1`, holds
the current alias and attempts `set_destination`; nothing changes and
nothing is sent. -/
theorem C3_witness :
    handleMessage
        ⟨[("A", ⟨"Alice", "A", "r1", 0, none⟩), ("B", ⟨"Bob", "B", "r1", 1, none⟩)],
         [("r1", ⟨0, "ride", "A", none⟩)],
         [("A", ⟨0, true⟩), ("B", ⟨1, true⟩)]⟩
        "B" "Bob" "r1" (some ⟨0, "ride", "A", none⟩) (.set_destination (some "d")) =
      (⟨[("A", ⟨"Alice", "A", "r1", 0, none⟩), ("B", ⟨"Bob", "B", "r1", 1, none⟩)],
        [("r1", ⟨0, "ride", "A", none⟩)],
        [("A", ⟨0, true⟩), ("B", ⟨1, true⟩)]⟩, [], false) :=
  C3_non_admin_silent
    ⟨[("A", ⟨"Alice", "A", "r1", 0, none⟩), ("B", ⟨"Bob", "B", "r1", 1, none⟩)],
     [("r1", ⟨0, "ride", "A", none⟩)],
     [("A", ⟨0, true⟩), ("B", ⟨1, true⟩)]⟩
    "B" "Bob" "r1" ⟨0, "ride", "A", none⟩ (some "d") (by decide) (by decide)

theorem alistErase_map_fst_nodup {α : Type} {l : List (String × α)} (k : String)
    (h : (l.map Prod.fst).Nodup) : ((alistErase l k).map Prod.fst).Nodup :=
  h.sublist ((List.filter_sublist l).map Prod.fst)

/-- The logged-out session is not among the ride members seen by the
`user_left` broadcast, because it was deleted from `active_sessions`
first. -/
theorem not_mem_rideSessions_erase (s : List (String × SessionInfo))
    (sid rid : String) : sid ∉ rideSessions (alistErase s sid) rid := by
  intro h
  obtain ⟨i, hi, _⟩ := mem_rideSessions.1 h
  have := (List.mem_filter.1 hi).2
  simp at this

theorem logout_absent (st : ServerState) (sid : String)
    (h : alistLookup st.active_sessions sid = none) :
    logout st sid = (st, [], "Logout successful") := by
  simp only [logout, h]

/-- C4 (counterexample): starting from a state where the iff invariant
holds — Alice is in `active_sessions` and attached — a completed
`logout` removes her from SessionRegistry yet leaves her live channel
entry in the connection table, so an operation does leave a
connection-table entry for a session identifier absent from
SessionRegistry. -/
theorem C4_counterexample :
    alistLookup (ServerState.active_sessions
        ⟨[("A", ⟨"Alice", "A", "r1", 0, none⟩)], [("r1", ⟨0, "ride", "A", none⟩)],
         [("A", ⟨0, true⟩)]⟩) "A" = some ⟨"Alice", "A", "r1", 0, none⟩ ∧
    alistLookup (logout
        ⟨[("A", ⟨"Alice", "A", "r1", 0, none⟩)], [("r1", ⟨0, "ride", "A", none⟩)],
         [("A", ⟨0, true⟩)]⟩ "A").1.active_sessions "A" = none ∧
    alistLookup (logout
        ⟨[("A", ⟨"Alice", "A", "r1", 0, none⟩)], [("r1", ⟨0, "ride", "A", none⟩)],
         [("A", ⟨0, true⟩)]⟩ "A").1.active_connections "A" = some ⟨0, true⟩ := by
  decide

/-- C4 (amended): logout removes the session from SessionRegistry but
never detaches the logged-out session's channel — its connection-table
entry survives exactly as it was; the entry is removed only by the
connection's own teardown paths (channel closure or processing fault). -/
theorem C4_detach_discipline (st : ServerState) (sid uname rid : String)
    (rinfo : Option RideInfo) (info : SessionInfo)
    (hs : alistLookup st.active_sessions sid = some info) :
    alistLookup (logout st sid).1.active_sessions sid = none ∧
    alistLookup (logout st sid).1.active_connections sid =
      alistLookup st.active_connections sid ∧
    alistLookup (wsLoop sid uname rid rinfo st [.disconnect]).1.active_connections sid
      = none ∧
    alistLookup (wsLoop sid uname rid rinfo st [.fault]).1.active_connections sid = none := by
  refine ⟨?_, ?_, ?_, ?_⟩
  · simp only [logout, hs, broadcast_active_sessions]
    rw [alistLookup_erase]
    simp
  · simp only [logout, hs]
    rw [broadcast_conns_lookup]
    have hnm : sid ∉ (bcastLoop
        ({ st with active_sessions := alistErase st.active_sessions sid }
          : ServerState).active_connections
        (Frame.user_left sid info.username) none
        (rideSessions ({ st with active_sessions := alistErase st.active_sessions sid }
          : ServerState).active_sessions info.ride_id)).2 := by
      intro hmem
      have := (bcastLoop_snd_mem.1 hmem).1
      exact not_mem_rideSessions_erase st.active_sessions sid info.ride_id this
    rw [if_neg hnm]
  · simp only [wsLoop]
    rw [broadcast_conns_lookup]
    have he : alistLookup
        (({ st with active_connections := alistErase st.active_connections sid }
          : ServerState).active_connections) sid = none := by
      show alistLookup (alistErase st.active_connections sid) sid = none
      rw [alistLookup_erase]
      simp
    split
    · rfl
    · exact he
  · simp only [wsLoop]
    show alistLookup (alistErase st.active_connections sid) sid = none
    rw [alistLookup_erase]
    simp

/-- Witness for C4's amended theorem, at the concrete one-member state. -/
theorem C4_witness :
    alistLookup (logout
        ⟨[("A", ⟨"Alice", "A", "r1", 0, none⟩)], [("r1", ⟨0, "ride", "A", none⟩)],
         [("A", ⟨0, true⟩)]⟩ "A").1.active_connections "A" =
      alistLookup (ServerState.active_connections
        ⟨[("A", ⟨"Alice", "A", "r1", 0, none⟩)], [("r1", ⟨0, "ride", "A", none⟩)],
         [("A", ⟨0, true⟩)]⟩) "A" :=
  (C4_detach_discipline
    ⟨[("A", ⟨"Alice", "A", "r1", 0, none⟩)], [("r1", ⟨0, "ride", "A", none⟩)],
     [("A", ⟨0, true⟩)]⟩ "A" "Alice" "r1" (some ⟨0, "ride", "A", none⟩)
    ⟨"Alice", "A", "r1", 0, none⟩ (by decide)).2.1

/-- C5 (counterexample): Bob is an attached member of Alice's ride, yet
the transition of Alice's connection into its terminal state triggered
by an unrecoverable processing fault delivers no frame at all — in
particular no `user_left` to Bob — while the claim requires a
`user_left` broadcast on every such transition. -/
theorem C5_counterexample :
    (wsLoop "A" "Alice" "r1" (some ⟨0, "ride", "A", none⟩)
      ⟨[("A", ⟨"Alice", "A", "r1", 0, none⟩), ("B", ⟨"Bob", "B", "r1", 1, none⟩)],
       [("r1", ⟨0, "ride", "A", none⟩)],
       [("A", ⟨0, true⟩), ("B", ⟨1, true⟩)]⟩ [WsEvent.fault]).2 = [] ∧
    alistLookup (ServerState.active_sessions
      ⟨[("A", ⟨"Alice", "A", "r1", 0, none⟩), ("B", ⟨"Bob", "B", "r1", 1, none⟩)],
       [("r1", ⟨0, "ride", "A", none⟩)],
       [("A", ⟨0, true⟩), ("B", ⟨1, true⟩)]⟩) "B" = some ⟨"Bob", "B", "r1", 1, none⟩ ∧
    alistLookup (ServerState.active_connections
      ⟨[("A", ⟨"Alice", "A", "r1", 0, none⟩), ("B", ⟨"Bob", "B", "r1", 1, none⟩)],
       [("r1", ⟨0, "ride", "A", none⟩)],
       [("A", ⟨0, true⟩), ("B", ⟨1, true⟩)]⟩) "B" = some ⟨1, true⟩ := by
  decide

/-- C5 (amended): a transition into the terminal state triggered by
channel closure detaches the session and then broadcasts `user_left`
(session id, username) to the other attached sessions of the ride; a
transition triggered by an unrecoverable processing fault detaches the
session but broadcasts nothing.  Neither path removes the session from
SessionRegistry. -/
theorem C5_close_paths (st : ServerState) (sid uname rid : String)
    (rinfo : Option RideInfo) (hwf : st.wf) :
    (wsLoop sid uname rid rinfo st [.disconnect]).1.active_sessions = st.active_sessions ∧
    alistLookup (wsLoop sid uname rid rinfo st [.disconnect]).1.active_connections sid
      = none ∧
    (∀ t f, (t, f) ∈ (wsLoop sid uname rid rinfo st [.disconnect]).2 ↔
      f = Frame.user_left sid uname ∧ t ≠ sid ∧
        (∃ i, alistLookup st.active_sessions t = some i ∧ i.ride_id = rid) ∧
        ∃ ch, alistLookup st.active_connections t = some ch ∧ ch.ok = true) ∧
    (wsLoop sid uname rid rinfo st [.fault]).1.active_sessions = st.active_sessions ∧
    alistLookup (wsLoop sid uname rid rinfo st [.fault]).1.active_connections sid = none ∧
    (wsLoop sid uname rid rinfo st [.fault]).2 = [] := by
  obtain ⟨hnd, _, _⟩ := hwf
  refine ⟨?_, ?_, ?_, rfl, ?_, rfl⟩
  · simp only [wsLoop, broadcast_active_sessions]
  · simp only [wsLoop]
    rw [broadcast_conns_lookup]
    have he : alistLookup
        (({ st with active_connections := alistErase st.active_connections sid }
          : ServerState).active_connections) sid = none := by
      show alistLookup (alistErase st.active_connections sid) sid = none
      rw [alistLookup_erase]
      simp
    split
    · rfl
    · exact he
  · intro t f
    simp only [wsLoop]
    have hnd1 : ((({ st with active_connections := alistErase st.active_connections sid } : ServerState).active_sessions).map Prod.fst).Nodup := hnd
    rw [@broadcast_deliv_mem ({ st with active_connections := alistErase st.active_connections sid })
      (Frame.user_left sid uname) rid none t f hnd1]
    show f = Frame.user_left sid uname ∧ some t ≠ none ∧
        (∃ i, alistLookup st.active_sessions t = some i ∧ i.ride_id = rid) ∧
        (∃ ch, alistLookup (alistErase st.active_connections sid) t = some ch ∧
          ch.ok = true) ↔ _
    rw [alistLookup_erase]
    constructor
    · rintro ⟨h1, _, h3, ch, hch, hok⟩
      by_cases ht : sid = t
      · rw [if_pos ht] at hch
        cases hch
      · rw [if_neg ht] at hch
        exact ⟨h1, fun he => ht he.symm, h3, ch, hch, hok⟩
    · rintro ⟨h1, ht, h3, ch, hch, hok⟩
      refine ⟨h1, by simp, h3, ch, ?_, hok⟩
      rw [if_neg (fun he => ht he.symm)]
      exact hch
  · simp only [wsLoop]
    show alistLookup (alistErase st.active_connections sid) sid = none
    rw [alistLookup_erase]
    simp

/-- Witness for C5's amended theorem: Bob receives `user_left` when
Alice's channel closes, and the fault path of the same state sends
nothing. -/
theorem C5_witness :
    ("B", Frame.user_left "A" "Alice") ∈
      (wsLoop "A" "Alice" "r1" (some ⟨0, "ride", "A", none⟩)
        ⟨[("A", ⟨"Alice", "A", "r1", 0, none⟩), ("B", ⟨"Bob", "B", "r1", 1, none⟩)],
         [("r1", ⟨0, "ride", "A", none⟩)],
         [("A", ⟨0, true⟩), ("B", ⟨1, true⟩)]⟩ [WsEvent.disconnect]).2 ∧
    (wsLoop "A" "Alice" "r1" (some ⟨0, "ride", "A", none⟩)
        ⟨[("A", ⟨"Alice", "A", "r1", 0, none⟩), ("B", ⟨"Bob", "B", "r1", 1, none⟩)],
         [("r1", ⟨0, "ride", "A", none⟩)],
         [("A", ⟨0, true⟩), ("B", ⟨1, true⟩)]⟩ [WsEvent.fault]).2 = [] := by
  have h := C5_close_paths
    ⟨[("A", ⟨"Alice", "A", "r1", 0, none⟩), ("B", ⟨"Bob", "B", "r1", 1, none⟩)],
     [("r1", ⟨0, "ride", "A", none⟩)],
     [("A", ⟨0, true⟩), ("B", ⟨1, true⟩)]⟩ "A" "Alice" "r1"
    (some ⟨0, "ride", "A", none⟩) (by decide)
  refine ⟨(h.2.2.1 "B" (Frame.user_left "A" "Alice")).2 ?_, h.2.2.2.2.2⟩
  exact ⟨rfl, by decide, ⟨⟨"Bob", "B", "r1", 1, none⟩, by decide, by decide⟩,
    ⟨⟨1, true⟩, by decide, by decide⟩⟩

/-- C6: a first logout of a present session removes it from the session
registry, answers success, and broadcasts exactly one `user_left` frame
to each other attached session of its ride; a second logout of the same
identifier answers the same success, emits nothing, and changes
nothing. -/
theorem C6_logout_idempotent (st : ServerState) (sid : String) (info : SessionInfo)
    (hwf : st.wf) (hs : alistLookup st.active_sessions sid = some info) :
    (logout st sid).2.2 = "Logout successful" ∧
    alistLookup (logout st sid).1.active_sessions sid = none ∧
    (∀ t f, (t, f) ∈ (logout st sid).2.1 ↔
      f = Frame.user_left sid info.username ∧ t ≠ sid ∧
        (∃ i, alistLookup st.active_sessions t = some i ∧ i.ride_id = info.ride_id) ∧
        ∃ ch, alistLookup st.active_connections t = some ch ∧ ch.ok = true) ∧
    ((logout st sid).2.1.map Prod.fst).Nodup ∧
    logout (logout st sid).1 sid = ((logout st sid).1, [], "Logout successful") := by
  obtain ⟨hnd, _, _⟩ := hwf
  have habsent : alistLookup (logout st sid).1.active_sessions sid = none := by
    simp only [logout, hs, broadcast_active_sessions]
    rw [alistLookup_erase]
    simp
  have hnd1 : ((({ st with active_sessions := alistErase st.active_sessions sid } : ServerState).active_sessions).map Prod.fst).Nodup :=
    alistErase_map_fst_nodup sid hnd
  refine ⟨by simp only [logout, hs], habsent, ?_, ?_, logout_absent _ _ habsent⟩
  · intro t f
    simp only [logout, hs]
    rw [@broadcast_deliv_mem ({ st with active_sessions := alistErase st.active_sessions sid })
      (Frame.user_left sid info.username) info.ride_id none t f hnd1]
    show f = Frame.user_left sid info.username ∧ some t ≠ none ∧
        (∃ i, alistLookup (alistErase st.active_sessions sid) t = some i ∧
          i.ride_id = info.ride_id) ∧
        (∃ ch, alistLookup st.active_connections t = some ch ∧ ch.ok = true) ↔ _
    rw [alistLookup_erase]
    constructor
    · rintro ⟨h1, _, ⟨i, hi, hir⟩, h4⟩
      by_cases ht : sid = t
      · rw [if_pos ht] at hi
        cases hi
      · rw [if_neg ht] at hi
        exact ⟨h1, fun he => ht he.symm, ⟨i, hi, hir⟩, h4⟩
    · rintro ⟨h1, ht, ⟨i, hi, hir⟩, h4⟩
      refine ⟨h1, by simp, ⟨i, ?_, hir⟩, h4⟩
      rw [if_neg (fun he => ht he.symm)]
      exact hi
  · simp only [logout, hs]
    exact @broadcast_deliv_nodup ({ st with active_sessions := alistErase st.active_sessions sid })
      (Frame.user_left sid info.username) info.ride_id none hnd1

/-- Witness for C6: logging Alice out twice from the two-member ride. -/
theorem C6_witness :
    ("B", Frame.user_left "A" "Alice") ∈
      (logout
        ⟨[("A", ⟨"Alice", "A", "r1", 0, none⟩), ("B", ⟨"Bob", "B", "r1", 1, none⟩)],
         [("r1", ⟨0, "ride", "A", none⟩)],
         [("A", ⟨0, true⟩), ("B", ⟨1, true⟩)]⟩ "A").2.1 ∧
    logout (logout
        ⟨[("A", ⟨"Alice", "A", "r1", 0, none⟩), ("B", ⟨"Bob", "B", "r1", 1, none⟩)],
         [("r1", ⟨0, "ride", "A", none⟩)],
         [("A", ⟨0, true⟩), ("B", ⟨1, true⟩)]⟩ "A").1 "A" =
      ((logout
        ⟨[("A", ⟨"Alice", "A", "r1", 0, none⟩), ("B", ⟨"Bob", "B", "r1", 1, none⟩)],
         [("r1", ⟨0, "ride", "A", none⟩)],
         [("A", ⟨0, true⟩), ("B", ⟨1, true⟩)]⟩ "A").1, [], "Logout successful") := by
  have h := C6_logout_idempotent
    ⟨[("A", ⟨"Alice", "A", "r1", 0, none⟩), ("B", ⟨"Bob", "B", "r1", 1, none⟩)],
     [("r1", ⟨0, "ride", "A", none⟩)],
     [("A", ⟨0, true⟩), ("B", ⟨1, true⟩)]⟩ "A" ⟨"Alice", "A", "r1", 0, none⟩
    (by decide) (by decide)
  refine ⟨(h.2.2.1 "B" (Frame.user_left "A" "Alice")).2 ?_, h.2.2.2.2⟩
  exact ⟨rfl, by decide, ⟨⟨"Bob", "B", "r1", 1, none⟩, by decide, by decide⟩,
    ⟨⟨1, true⟩, by decide, by decide⟩⟩

/-- C7: an inbound connection naming a session identifier that does not
resolve in the session registry is terminated immediately with close
code 1008 (policy violation): no channel is attached, no frame is sent
or broadcast, and the whole registry state is unchanged — whatever
events would have followed on the connection. -/
theorem C7_unknown_session_rejected (st : ServerState) (sid : String) (ch : Chan)
    (events : List WsEvent) (h : alistLookup st.active_sessions sid = none) :
    wsSession st sid ch events = (st, [], .rejected 1008 "Invalid session") := by
  simp only [wsSession, h]

/-- Witness for C7: connecting with an unknown session id against the
one-member state is rejected outright. -/
theorem C7_witness :
    wsSession
        ⟨[("A", ⟨"Alice", "A", "r1", 0, none⟩)], [("r1", ⟨0, "ride", "A", none⟩)],
         [("A", ⟨0, true⟩)]⟩ "X" ⟨7, true⟩ [WsEvent.disconnect] =
      (⟨[("A", ⟨"Alice", "A", "r1", 0, none⟩)], [("r1", ⟨0, "ride", "A", none⟩)],
        [("A", ⟨0, true⟩)]⟩, [], .rejected 1008 "Invalid session") :=
  C7_unknown_session_rejected
    ⟨[("A", ⟨"Alice", "A", "r1", 0, none⟩)], [("r1", ⟨0, "ride", "A", none⟩)],
     [("A", ⟨0, true⟩)]⟩ "X" ⟨7, true⟩ [WsEvent.disconnect] (by decide)

theorem send_personal_rides (st : ServerState) (msg : Frame) (sid : String) :
    (send_personal_message st msg sid).1.rides = st.rides := by
  cases h : alistLookup st.active_connections sid with
  | none => simp [send_personal_message, h]
  | some ch =>
    by_cases hok : ch.ok
    · simp [send_personal_message, h, hok]
    · simp [send_personal_message, h, hok]

theorem handleMessage_adminOf (st : ServerState) (sid uname rid : String)
    (rinfo : Option RideInfo) (m : InMsg) (R : String) :
    adminOf (handleMessage st sid uname rid rinfo m).1 R = adminOf st R := by
  cases m with
  | location_update loc =>
    cases hs : alistLookup st.active_sessions sid with
    | none => simp [handleMessage, hs]
    | some info =>
      simp only [handleMessage, hs]
      rfl
  | set_destination d =>
    cases rinfo with
    | none => rfl
    | some ri0 =>
      by_cases hadm : ri0.admin_session_id = sid
      · simp only [handleMessage, if_pos hadm]
        cases hrd : alistLookup st.rides rid with
        | none =>
          simp only [hrd]
          rfl
        | some ri =>
          simp only [hrd]
          by_cases hid : ri.created_at = ri0.created_at ∧ ri.name = ri0.name ∧
              ri.admin_session_id = ri0.admin_session_id
          · rw [if_pos hid]
            show adminOf (broadcast_to_ride
              ({ st with rides := alistInsert st.rides rid ({ ri with destination := d }) })
              (Frame.destination_update d) rid none).1 R = adminOf st R
            unfold adminOf
            rw [broadcast_rides]
            show (alistLookup (alistInsert st.rides rid ({ ri with destination := d })) R).map
              RideInfo.admin_session_id = _
            rw [alistLookup_insert]
            by_cases hR : rid = R
            · subst hR
              rw [if_pos rfl, hrd]
              rfl
            · rw [if_neg hR]
          · rw [if_neg hid]
            rfl
      · simp [handleMessage, hadm]
  | other => rfl

theorem wsLoop_adminOf (sid uname rid : String) (rinfo : Option RideInfo) :
    ∀ (events : List WsEvent) (st : ServerState) (R : String),
      adminOf (wsLoop sid uname rid rinfo st events).1 R = adminOf st R
  | [], _, _ => rfl
  | .msg m :: rest, st, R => by
    simp only [wsLoop]
    by_cases hraise : (handleMessage st sid uname rid rinfo m).2.2 = true
    · rw [if_pos hraise]
      show adminOf (handleMessage st sid uname rid rinfo m).1 R = adminOf st R
      exact handleMessage_adminOf st sid uname rid rinfo m R
    · rw [if_neg hraise]
      show adminOf
        (wsLoop sid uname rid rinfo (handleMessage st sid uname rid rinfo m).1 rest).1 R
        = adminOf st R
      rw [wsLoop_adminOf sid uname rid rinfo rest (handleMessage st sid uname rid rinfo m).1 R]
      exact handleMessage_adminOf st sid uname rid rinfo m R
  | .disconnect :: _, st, R => by
    simp only [wsLoop]
    rfl
  | .fault :: _, _, _ => rfl

theorem wsSession_adminOf (st : ServerState) (sid : String) (ch : Chan)
    (events : List WsEvent) (R : String) :
    adminOf (wsSession st sid ch events).1 R = adminOf st R := by
  cases hs : alistLookup st.active_sessions sid with
  | none => simp [wsSession, hs]
  | some info =>
    simp only [wsSession, hs]
    rw [wsLoop_adminOf]
    show adminOf (broadcast_to_ride (send_personal_message
      ({ st with active_connections := alistInsert st.active_connections sid ch })
      _ sid).1 (Frame.user_joined sid info.username) info.ride_id (some sid)).1 R
      = adminOf st R
    unfold adminOf
    rw [broadcast_rides, send_personal_rides]

/-- C8 (counterexample): ride `r1` exists with admin `A`; a later login
with action `create` whose generated short ride identifier collides
with `r1` rebinds the ride and replaces its admin with the new session
`E` — so a subsequent operation can change a ride's admin, contrary to
the claim. -/
theorem C8_counterexample :
    adminOf ⟨[], [("r1", ⟨0, "ride", "A", none⟩)], []⟩ "r1" = some "A" ∧
    (login ⟨[], [("r1", ⟨0, "ride", "A", none⟩)], []⟩ "Eve" "create" none "E" "r1" 5).2
      = LoginResult.ok "E" "Eve" "r1" true ∧
    adminOf (login ⟨[], [("r1", ⟨0, "ride", "A", none⟩)], []⟩
      "Eve" "create" none "E" "r1" 5).1 "r1" = some "E" := by
  decide

/-- C8 (amended): provided the ride identifier generated for a `create`
login is fresh (does not collide with ride R), no operation — login,
logout, or a whole websocket session covering connect,
`location_update`, `set_destination`, unknown messages, disconnect and
fault — ever changes the admin recorded for R. -/
theorem C8_admin_immutable (st : ServerState) (R : String) :
    (∀ uname action rid0 nsid nrid now, nrid ≠ R →
      adminOf (login st uname action rid0 nsid nrid now).1 R = adminOf st R) ∧
    (∀ sid, adminOf (logout st sid).1 R = adminOf st R) ∧
    (∀ sid ch events, adminOf (wsSession st sid ch events).1 R = adminOf st R) := by
  refine ⟨?_, ?_, ?_⟩
  · intro uname action rid0 nsid nrid now hne
    by_cases h1 : pyStrip uname = ""
    · simp [login, h1]
    · by_cases h2 : (pyStrip uname).length > 50
      · simp [login, h1, h2]
      · by_cases h3 : action = "create"
        · simp [login, h1, h2, h3, adminOf, alistLookup_insert, hne]
        · by_cases h4 : action = "join"
          · cases rid0 with
            | none => simp [login, h1, h2, h3, h4]
            | some r0 =>
              by_cases h5 : r0 = ""
              · simp [login, h1, h2, h3, h4, h5]
              · by_cases h6 : (pyStrip r0).length > 20 ∨ pyIsAlnum (pyStrip r0) = false
                · simp [login, h1, h2, h3, h4, h5, h6]
                · by_cases h7 : alistLookup st.rides (pyStrip r0) = none
                  · simp [login, h1, h2, h3, h4, h5, h6, h7]
                  · simp only [login, h1, h2, h3, h4, h5, h6, h7]
                    simp [adminOf]
          · simp [login, h1, h2, h3, h4]
  · intro sid
    cases hs : alistLookup st.active_sessions sid with
    | none => simp [logout, hs]
    | some info =>
      simp only [logout, hs]
      rfl
  · intro sid ch events
    exact wsSession_adminOf st sid ch events R

/-- Witness for C8's amended theorem: a fresh create, a logout and a
full websocket session all leave the admin of `r1` at `A`. -/
theorem C8_witness :
    adminOf (login
      ⟨[("A", ⟨"Alice", "A", "r1", 0, none⟩)], [("r1", ⟨0, "ride", "A", none⟩)],
       [("A", ⟨0, true⟩)]⟩ "Eve" "create" none "E" "r2" 5).1 "r1" =
      adminOf ⟨[("A", ⟨"Alice", "A", "r1", 0, none⟩)], [("r1", ⟨0, "ride", "A", none⟩)],
       [("A", ⟨0, true⟩)]⟩ "r1" ∧
    adminOf (wsSession
      ⟨[("A", ⟨"Alice", "A", "r1", 0, none⟩)], [("r1", ⟨0, "ride", "A", none⟩)],
       [("A", ⟨0, true⟩)]⟩ "A" ⟨0, true⟩
      [WsEvent.msg (.set_destination (some "d")), WsEvent.disconnect]).1 "r1" =
      adminOf ⟨[("A", ⟨"Alice", "A", "r1", 0, none⟩)], [("r1", ⟨0, "ride", "A", none⟩)],
       [("A", ⟨0, true⟩)]⟩ "r1" := by
  have h := C8_admin_immutable
    ⟨[("A", ⟨"Alice", "A", "r1", 0, none⟩)], [("r1", ⟨0, "ride", "A", none⟩)],
     [("A", ⟨0, true⟩)]⟩ "r1"
  exact ⟨h.1 "Eve" "create" none "E" "r2" 5 (by decide),
    h.2.2 "A" ⟨0, true⟩ [WsEvent.msg (.set_destination (some "d")), WsEvent.disconnect]⟩

/-- With no interference, the interleaved fan-out loop is exactly the
sequential loop the code runs. -/
theorem bcastLoopEnv_nil_env (msg : Frame) (excl : Option String)
    (conns : List (String × Chan)) (recips : List String) :
    bcastLoopEnv msg excl conns [] recips = bcastLoop conns msg excl recips := by
  induction recips with
  | nil => rfl
  | cons sid rest ih =>
    simp only [bcastLoopEnv, bcastLoop, List.headD_nil, List.tail_nil, ih]

/-- Whatever other handlers do to the connection table between two sends,
every delivery of a fan-out goes to a member of the initial snapshot,
carries the broadcast message, and never goes to the excluded sender. -/
theorem bcastLoopEnv_deliv_sub (msg : Frame) (excl : Option String) :
    ∀ (recips : List String) (conns : List (String × Chan))
      (envs : List (List (String × Chan))) (t : String) (f : Frame),
      (t, f) ∈ (bcastLoopEnv msg excl conns envs recips).1 →
        t ∈ recips ∧ f = msg ∧ some t ≠ excl := by
  intro recips
  induction recips with
  | nil =>
    intro conns envs t f h
    simp [bcastLoopEnv] at h
  | cons sid rest ih =>
    intro conns envs t f h
    simp only [bcastLoopEnv] at h
    split at h
    · obtain ⟨h1, h2, h3⟩ := ih _ _ _ _ h
      exact ⟨List.mem_cons_of_mem _ h1, h2, h3⟩
    · next hex =>
      split at h
      · obtain ⟨h1, h2, h3⟩ := ih _ _ _ _ h
        exact ⟨List.mem_cons_of_mem _ h1, h2, h3⟩
      · next ch hc =>
        split at h
        · rcases List.mem_cons.1 h with h0 | h0
          · obtain ⟨rfl, rfl⟩ := Prod.mk.injEq .. ▸ h0
            exact ⟨List.mem_cons_self _ _, rfl, hex⟩
          · obtain ⟨h1, h2, h3⟩ := ih _ _ _ _ h0
            exact ⟨List.mem_cons_of_mem _ h1, h2, h3⟩
        · obtain ⟨h1, h2, h3⟩ := ih _ _ _ _ h
          exact ⟨List.mem_cons_of_mem _ h1, h2, h3⟩

/-- A recipient whose channel is registered in none of the tables the
fan-out consults — it disappeared before its turn — is skipped without
any error: it receives nothing and is not put on the prune list. -/
theorem bcastLoopEnv_vanished (msg : Frame) (excl : Option String) :
    ∀ (recips : List String) (conns : List (String × Chan))
      (envs : List (List (String × Chan))) (t : String),
      alistLookup conns t = none → (∀ e ∈ envs, alistLookup e t = none) →
      (∀ f, (t, f) ∉ (bcastLoopEnv msg excl conns envs recips).1) ∧
        t ∉ (bcastLoopEnv msg excl conns envs recips).2 := by
  intro recips
  induction recips with
  | nil =>
    intro conns envs t _ _
    constructor
    · intro f h
      simp [bcastLoopEnv] at h
    · intro h
      simp [bcastLoopEnv] at h
  | cons sid rest ih =>
    intro conns envs t hconns henvs
    have hcur : alistLookup (envs.headD conns) t = none := by
      cases envs with
      | nil => exact hconns
      | cons e es => exact henvs e (List.mem_cons_self e es)
    have htl : ∀ e ∈ envs.tail, alistLookup e t = none := by
      intro e he
      cases envs with
      | nil => simp at he
      | cons e0 es => exact henvs e (List.mem_cons_of_mem e0 he)
    have hrec := ih (envs.headD conns) envs.tail t hcur htl
    constructor
    · intro f h
      simp only [bcastLoopEnv] at h
      split at h
      · exact hrec.1 f h
      · split at h
        · exact hrec.1 f h
        · next ch hc =>
          split at h
          · rcases List.mem_cons.1 h with h0 | h0
            · have : t = sid := congrArg Prod.fst h0
              subst this
              rw [hcur] at hc
              cases hc
            · exact hrec.1 f h0
          · exact hrec.1 f h
    · intro h
      simp only [bcastLoopEnv] at h
      split at h
      · exact hrec.2 h
      · split at h
        · exact hrec.2 h
        · next ch hc =>
          split at h
          · exact hrec.2 h
          · rcases List.mem_cons.1 h with h0 | h0
            · subst h0
              rw [hcur] at hc
              cases hc
            · exact hrec.2 h0

/-- C9: the recipient set of a broadcast is computed once, at the start
of the call, as the snapshot `rideSessions` of `active_sessions`; the
fan-out the code runs is the interference-free instance of the
step-indexed loop `bcastLoopEnv`, and under any interleaving of
connection-table mutations between sends (i) every delivery goes to a
member of the initial snapshot with the broadcast message — sessions
joining or leaving the ride mid-loop are not observed — and (ii) a
recipient whose channel has disappeared before its turn is skipped
without error: no delivery, no prune-list entry, no crash.  Failed
sends are pruned from the connection table only after the loop, the
snapshot itself never being mutated. -/
theorem C9_broadcast_snapshot :
    (∀ (st : ServerState) (msg : Frame) (rid : String) (excl : Option String),
      (broadcast_to_ride st msg rid excl).2 =
        (bcastLoopEnv msg excl st.active_connections []
          (rideSessions st.active_sessions rid)).1 ∧
      (broadcast_to_ride st msg rid excl).1.active_sessions = st.active_sessions ∧
      ∀ k, alistLookup (broadcast_to_ride st msg rid excl).1.active_connections k =
        if k ∈ (bcastLoop st.active_connections msg excl
            (rideSessions st.active_sessions rid)).2
        then none else alistLookup st.active_connections k) ∧
    (∀ (msg : Frame) (excl : Option String) (recips : List String)
       (conns : List (String × Chan)) (envs : List (List (String × Chan)))
       (t : String) (f : Frame),
      (t, f) ∈ (bcastLoopEnv msg excl conns envs recips).1 →
        t ∈ recips ∧ f = msg ∧ some t ≠ excl) ∧
    (∀ (msg : Frame) (excl : Option String) (recips : List String)
       (conns : List (String × Chan)) (envs : List (List (String × Chan)))
       (t : String),
      alistLookup conns t = none → (∀ e ∈ envs, alistLookup e t = none) →
      (∀ f, (t, f) ∉ (bcastLoopEnv msg excl conns envs recips).1) ∧
        t ∉ (bcastLoopEnv msg excl conns envs recips).2) := by
  refine ⟨?_, ?_, ?_⟩
  · intro st msg rid excl
    refine ⟨?_, rfl, ?_⟩
    · rw [bcastLoopEnv_nil_env]
      rfl
    · intro k
      exact broadcast_conns_lookup st msg rid excl k
  · intro msg excl recips conns envs t f h
    exact bcastLoopEnv_deliv_sub msg excl recips conns envs t f h
  · intro msg excl recips conns envs t h1 h2
    exact bcastLoopEnv_vanished msg excl recips conns envs t h1 h2

/-- Witness for C9: with the snapshot `["A", "B"]`, a table where only
`A` is attached at the first step and only `C` at the second, the
vanished recipient `B` gets no delivery and no prune entry, and every
delivery the interleaved loop makes stays inside the snapshot. -/
theorem C9_witness :
    ((∀ f, ("B", f) ∉ (bcastLoopEnv (Frame.destination_update (some "d")) none
        [("A", ⟨0, true⟩)] [[("A", ⟨0, true⟩)], [("C", ⟨2, true⟩)]] ["A", "B"]).1) ∧
      "B" ∉ (bcastLoopEnv (Frame.destination_update (some "d")) none
        [("A", ⟨0, true⟩)] [[("A", ⟨0, true⟩)], [("C", ⟨2, true⟩)]] ["A", "B"]).2) ∧
    ("A" ∈ ["A", "B"] ∧ Frame.destination_update (some "d")
        = Frame.destination_update (some "d") ∧
      some "A" ≠ (none : Option String)) := by
  constructor
  · exact C9_broadcast_snapshot.2.2 (Frame.destination_update (some "d")) none
      ["A", "B"] [("A", ⟨0, true⟩)] [[("A", ⟨0, true⟩)], [("C", ⟨2, true⟩)]] "B"
      (by decide) (by decide)
  · exact C9_broadcast_snapshot.2.1 (Frame.destination_update (some "d")) none
      ["A", "B"] [("A", ⟨0, true⟩)] [[("A", ⟨0, true⟩)], [("C", ⟨2, true⟩)]] "A"
      (Frame.destination_update (some "d")) (by decide)

/-- C10: a targeted send to a session identifier with no registered
channel is a silent no-op — no error, no frame, and the whole state
(session registry, ride registry, connection table) unchanged. -/
theorem C10_send_personal_no_channel (st : ServerState) (msg : Frame)
    (sid : String) (h : alistLookup st.active_connections sid = none) :
    send_personal_message st msg sid = (st, []) := by
  simp only [send_personal_message, h]

/-- Witness for C10: sending to the unknown session id `X`. -/
theorem C10_witness :
    send_personal_message
        ⟨[("A", ⟨"Alice", "A", "r1", 0, none⟩)], [("r1", ⟨0, "ride", "A", none⟩)],
         [("A", ⟨0, true⟩)]⟩ (Frame.user_joined "A" "Alice") "X" =
      (⟨[("A", ⟨"Alice", "A", "r1", 0, none⟩)], [("r1", ⟨0, "ride", "A", none⟩)],
        [("A", ⟨0, true⟩)]⟩, []) :=
  C10_send_personal_no_channel
    ⟨[("A", ⟨"Alice", "A", "r1", 0, none⟩)], [("r1", ⟨0, "ride", "A", none⟩)],
     [("A", ⟨0, true⟩)]⟩ (Frame.user_joined "A" "Alice") "X" (by decide)
